import Mathlib

/-!
Verification development for the ODP+ peer orchestration and
synchronization engine (`p2p-client`, `P2POrchestrator`, `odp-websocket`).

The definitions below are shallow embeddings of the TypeScript source:
numbers coming from `Date.now()` arithmetic are modelled as rationals
(the concrete values manipulated by the source are exactly representable
IEEE doubles, so rational arithmetic is exact for them), JavaScript `Set`
and `Map` objects are modelled as lists with insertion-ordered update
semantics, and the event-driven handlers are modelled as explicit state
transition functions.
-/

namespace ODP

/-! ## Clock synchronizer (follower side of `P2PClient.handleConnection`) -/

/-- Constant `P2PClient.MAX_RTT_SAMPLES`: capacity of the rolling RTT window. -/
def MAX_RTT_SAMPLES : Nat := 7

/-- Constant `P2PClient.RTT_OUTLIER_THRESHOLD`: reject if RTT > 2.5x the median. -/
def RTT_OUTLIER_THRESHOLD : ℚ := 5 / 2

/-- Insert a rational into an ascending-sorted list, keeping it sorted.
Models one step of `[...recentRTTs].sort((a, b) => a - b)`. -/
def insertAsc (x : ℚ) : List ℚ → List ℚ
  | [] => [x]
  | y :: ys => if x ≤ y then x :: y :: ys else y :: insertAsc x ys

/-- Ascending sort, modelling `array.sort((a, b) => a - b)`. -/
def sortAsc (l : List ℚ) : List ℚ := l.foldr insertAsc []

/-- The expression `sorted[Math.floor(sorted.length / 2)]`: the (upper) median of the
buffer, as computed in the outlier-rejection branch. -/
def jsMedian (l : List ℚ) : ℚ := (sortAsc l).getD (l.length / 2) 0

/-- The follower-side clock synchronizer state: the rolling RTT window
`recentRTTs` (oldest first, as in the JS array used with `push`/`shift`)
and the exposed `clockOffset`. -/
structure SyncState where
  recentRTTs : List ℚ
  clockOffset : ℚ
  deriving DecidableEq, Repr

/-- Initial synchronizer state: empty window, `clockOffset = 0`. -/
def initSync : SyncState := ⟨[], 0⟩

/-- One `__pong` reply as observed by the follower: the echoed probe send
time `t1`, the host's `serverTime`, and the local receipt time `t4`. -/
structure PongEvent where
  t1 : ℚ
  serverTime : ℚ
  t4 : ℚ
  deriving DecidableEq, Repr

/-- Round-trip time `rtt = t4 - t1`. -/
def rttOf (e : PongEvent) : ℚ := e.t4 - e.t1

/-- Candidate offset `t4 - (serverTime + rtt / 2)`. -/
def candOffset (e : PongEvent) : ℚ := e.t4 - (e.serverTime + rttOf e / 2)

/-- The update `recentRTTs.push(rtt); if (length > MAX_RTT_SAMPLES) shift()`. -/
def pushTrim (l : List ℚ) (rtt : ℚ) : List ℚ :=
  let l' := l ++ [rtt]
  if MAX_RTT_SAMPLES < l'.length then l'.tail else l'

/-- The `__pong` branch of `P2PClient.handleConnection`'s data handler:
outlier rejection once three samples are held, then push/trim of the RTT
window and adoption of the candidate offset. -/
def handlePong (s : SyncState) (e : PongEvent) : SyncState :=
  if 3 ≤ s.recentRTTs.length ∧ jsMedian s.recentRTTs * RTT_OUTLIER_THRESHOLD < rttOf e
  then s
  else ⟨pushTrim s.recentRTTs (rttOf e), candOffset e⟩

/-- Process a sequence of `__pong` replies starting from a given state. -/
def runSyncFrom (s : SyncState) (evs : List PongEvent) : SyncState :=
  evs.foldl handlePong s

/-- Process a sequence of `__pong` replies from the initial state. -/
def runSync (evs : List PongEvent) : SyncState := runSyncFrom initSync evs

/-- The candidate offsets of the samples a run accepts into the buffer,
in arrival order (spec-side observer; acceptance decided exactly by the
source's `handlePong` condition). -/
def acceptedOffsets (s : SyncState) : List PongEvent → List ℚ
  | [] => []
  | e :: evs =>
      (if 3 ≤ s.recentRTTs.length ∧
          jsMedian s.recentRTTs * RTT_OUTLIER_THRESHOLD < rttOf e
       then []
       else [candOffset e]) ++ acceptedOffsets (handlePong s e) evs

/-- Modelled from the spec: the *effective offset* the specification
prescribes, namely `median(offsetsInBuffer)` over the retained (at most
`MAX_RTT_SAMPLES` most recent) accepted samples. The source keeps no
offset buffer, so this definition follows the spec's words for the
refinement comparison in C1. -/
def specEffectiveOffset (evs : List PongEvent) : ℚ :=
  jsMedian ((acceptedOffsets initSync evs).reverse.take MAX_RTT_SAMPLES).reverse

/-! ## Follower reconnection backoff (`P2PClient.connectToHost` and the
`close` handler of `handleConnection`) -/

/-- The delay `Math.min(3000 * Math.pow(1.5, n), 60000)` used
both by the per-attempt timeout retry and by the close-handler
reconnect. -/
def backoffDelay (n : Nat) : ℚ := min (3000 * (3 / 2) ^ n) 60000

/-- Constant `maxRetries` in `connectToHost`. -/
def maxRetries : Nat := 8

/-- Per-attempt connection timeout (ms) in `connectToHost`. -/
def connectAttemptTimeoutMs : ℚ := 5000

/-- The decision taken when a connection attempt's 5000 ms timeout fires:
if the connection is still not open and `retryCount < maxRetries`, a
retry is scheduled after `backoffDelay retryCount`; otherwise nothing is
scheduled (at `retryCount ≥ maxRetries` the code logs a terminal
"Max retries reached" error). -/
def onConnectTimeout (connOpen : Bool) (retryCount : Nat) : Option ℚ :=
  if connOpen = false ∧ retryCount < maxRetries
  then some (backoffDelay retryCount)
  else none

/-- The `P2PClient` reconnection counter state. -/
structure ClientState where
  reconnectAttempts : Nat
  deriving DecidableEq, Repr

/-- Handler `conn.on("open")`: `this.reconnectAttempts = 0`. -/
def onConnOpen (_s : ClientState) : ClientState := ⟨0⟩

/-- Handler `conn.on("close")`: a follower that loses an outgoing (host)
connection always schedules a reconnect after `backoffDelay
reconnectAttempts` and increments the counter; hosts and incoming
connections schedule nothing. Returns the scheduled delay (if any) and
the new state. -/
def onConnClose (isHost isIncoming : Bool) (s : ClientState) :
    Option ℚ × ClientState :=
  if isHost = false ∧ isIncoming = false
  then (some (backoffDelay s.reconnectAttempts), ⟨s.reconnectAttempts + 1⟩)
  else (none, s)

/-! ## Host orchestrator (`P2POrchestrator`) -/

/-- JS `Set.add`: append if absent (insertion order preserved). -/
def addSet (p : String) (l : List String) : List String :=
  if p ∈ l then l else l ++ [p]

/-- JS `Set.delete` / `Map.delete` on keys: remove every entry for `p`. -/
def delSet (p : String) (l : List String) : List String :=
  l.filter (fun q => q ≠ p)

/-- The host orchestrator state: the `P2PClient` connection map
(`conns`, peer id paired with the connection's `open` flag), the
handshake / late-joiner sets, and the start and results sync gates
(`startWaiting` models `songStartResolver != null`, `startResolved`
models the returned promise having resolved; likewise for results). -/
structure OrchState where
  conns : List (String × Bool)
  initializingPeers : List String
  peersWaitingForSong : List String
  readyPeers : List String
  finishedPeers : List String
  hostVideoReady : Bool
  startWaiting : Bool
  startResolved : Bool
  resultsWaiting : Bool
  resultsResolved : Bool
  deriving DecidableEq, Repr

/-- Initial orchestrator state. -/
def initOrch : OrchState := ⟨[], [], [], [], [], false, false, false, false, false⟩

/-- Method `p2pClient.getPeerIds()`: the keys of the connection map. -/
def getPeerIds (s : OrchState) : List String := s.conns.map Prod.fst

/-- Method `p2pClient.isPeerConnected(p)`: an entry exists and is open. -/
def connOpen (s : OrchState) (p : String) : Bool :=
  (s.conns.lookup p).getD false

/-- Method `resolveStartSync`: fire the pending start resolver, if any. -/
def resolveStartSync (s : OrchState) : OrchState :=
  if s.startWaiting then { s with startWaiting := false, startResolved := true } else s

/-- Method `resolveResultsSync`: fire the pending results resolver, if any. -/
def resolveResultsSync (s : OrchState) : OrchState :=
  if s.resultsWaiting then { s with resultsWaiting := false, resultsResolved := true } else s

/-- Method `checkStartReadiness`: resolve the start gate when the host video is
ready and every currently connected peer is in `readyPeers`. -/
def checkStartReadiness (s : OrchState) : OrchState :=
  if s.hostVideoReady = true ∧
      (getPeerIds s = [] ∨ ∀ p ∈ getPeerIds s, p ∈ s.readyPeers)
  then resolveStartSync s
  else s

/-- Method `checkResultsReadiness`: resolve the results gate when every
currently connected peer is in `finishedPeers`. -/
def checkResultsReadiness (s : OrchState) : OrchState :=
  if getPeerIds s = [] ∨ ∀ p ∈ getPeerIds s, p ∈ s.finishedPeers
  then resolveResultsSync s
  else s

/-- The `func` tags `broadcastMessage` treats as gameplay traffic. -/
def gameplayFuncs : List String := ["playerFeedBack", "playerScore", "playerMoves"]

/-- Predicate for the tags on which `handleMessage` clears `peersWaitingForSong`. -/
def clearsWaitingFunc (f : String) : Prop := f = "songEnd" ∨ f = "returnToLobby"

instance : DecidablePred clearsWaitingFunc := fun f => by
  unfold clearsWaitingFunc; infer_instance

/-- The orchestrator events relevant to the gates, the handshake sets and
message handling. `peerConnect`/`peerDisconnect` are the `P2PClient`
connection-map updates; `replayCheck p mid` is step 6 of
`handleNewPeerConnection` (liveness check, then the `isMidSong` late
joiner marking, with `mid` the `gameState.isMidSong` value read there);
`initDone` is its final `initializingPeers.delete`. -/
inductive OrchEvent where
  | peerConnect (p : String)
  | peerDisconnect (p : String)
  | handshakeStart (p : String)
  | replayCheck (p : String) (mid : Bool)
  | initDone (p : String)
  | handleMsg (f : String)
  | markHostVideoReady
  | handleReadyToStart (p : String)
  | handleReadyForResults (p : String)
  | waitForAllReady
  | waitForAllFinished
  | startTimeout
  | resultsTimeout
  | resetSyncGates
  deriving DecidableEq, Repr

/-- One orchestrator step. Each branch is the shallow embedding of the
correspondingly named `P2POrchestrator` / `P2PClient` handler. -/
def applyEvent (s : OrchState) (e : OrchEvent) : OrchState :=
  match e with
  | .peerConnect p =>
      if p ∈ getPeerIds s then s else { s with conns := s.conns ++ [(p, true)] }
  | .peerDisconnect p =>
      { s with conns := s.conns.filter (fun c => c.1 ≠ p) }
  | .handshakeStart p =>
      { s with initializingPeers := addSet p s.initializingPeers }
  | .replayCheck p mid =>
      if connOpen s p = false then
        { s with initializingPeers := delSet p s.initializingPeers }
      else if mid then
        { s with peersWaitingForSong := addSet p s.peersWaitingForSong }
      else s
  | .initDone p =>
      { s with initializingPeers := delSet p s.initializingPeers }
  | .handleMsg f =>
      if clearsWaitingFunc f then { s with peersWaitingForSong := [] } else s
  | .markHostVideoReady =>
      checkStartReadiness { s with hostVideoReady := true }
  | .handleReadyToStart p =>
      if p ∈ getPeerIds s then
        checkStartReadiness { s with readyPeers := addSet p s.readyPeers }
      else s
  | .handleReadyForResults p =>
      if p ∈ getPeerIds s then
        checkResultsReadiness { s with finishedPeers := addSet p s.finishedPeers }
      else s
  | .waitForAllReady =>
      if getPeerIds s = [] ∧ s.hostVideoReady = true then
        { s with startResolved := true }
      else checkStartReadiness { s with startWaiting := true }
  | .waitForAllFinished =>
      if getPeerIds s = [] then { s with resultsResolved := true }
      else checkResultsReadiness { s with resultsWaiting := true }
  | .startTimeout => resolveStartSync s
  | .resultsTimeout => resolveResultsSync s
  | .resetSyncGates =>
      { s with readyPeers := [], finishedPeers := [], hostVideoReady := false,
               startWaiting := false, resultsWaiting := false }

/-- Run a sequence of orchestrator events. -/
def applyEvents (s : OrchState) (evs : List OrchEvent) : OrchState :=
  evs.foldl applyEvent s

/-- The peers `broadcastMessage msg` actually sends to: every connected
peer that is not mid-handshake, is not withheld as a late joiner when
the message is gameplay traffic, and whose connection is open
(`sendTo` sends only on open connections). -/
def broadcastMessageSends (s : OrchState) (f : String) : List String :=
  (getPeerIds s).filter (fun p =>
    decide (p ∉ s.initializingPeers) &&
    !(decide (f ∈ gameplayFuncs) && decide (p ∈ s.peersWaitingForSong)) &&
    connOpen s p)

/-- The peers `broadcastRaw` (via `P2PClient.broadcast`) sends to: every
open connection, with no set-based filtering. -/
def broadcastRawSends (s : OrchState) : List String :=
  (s.conns.filter (fun c => c.2)).map Prod.fst

/-! ## Host-side forwarded payload validation (`OdpWebSocket.handleP2PData`
and `jdn-protocol.wsStringToObject`) -/

/-- A JavaScript value as far as the forward-validation branch can
distinguish them: a string or some non-string value. -/
inductive JSVal where
  | str (s : String)
  | nonString
  deriving DecidableEq, Repr

/-- What the host does with the `payload` of a `__forward` envelope. -/
inductive ForwardAction where
  | relay (payload : String)
  | dropLogged
  | dropSilent
  deriving DecidableEq, Repr

/-- The `__forward` branch of `OdpWebSocket.handleP2PData`, parameterized
by the success predicate of `JSON.parse` (an external primitive):
`wsStringToObject(payload)` is `JSON.parse(payload.substring(4))`, so the
payload is relayed to the real WebSocket iff it is a string of length
greater than 4 whose suffix after the 4-character prefix parses; a string
that fails to parse hits the `catch` and is logged; anything else falls
through the `if` silently. -/
def hostHandleForward (jsonParses : String → Bool) (payload : JSVal) :
    ForwardAction :=
  match payload with
  | .str s =>
      if 4 < s.length then
        if jsonParses (s.drop 4) then .relay s else .dropLogged
      else .dropSilent
  | .nonString => .dropSilent

/-! ## Handshake RTT measurement (`measurePeerRTT`, `handleNewPeerConnection`) -/

/-- RTT probe timeout (ms) in `measurePeerRTT`. -/
def rttProbeTimeoutMs : ℚ := 2000

/-- Fallback RTT (ms) resolved when the probe times out. -/
def rttFallbackMs : ℚ := 100

/-- JavaScript `Math.round` (floor of x + 1/2). -/
def jsRound (q : ℚ) : ℤ := ⌊q + 1 / 2⌋

/-- Method `measurePeerRTT`: given the probe send time and the `__rttEcho`
arrival (its local arrival time paired with the echoed `t1`), resolve
with `now - echoT1` when the echo arrives before the 2000 ms timeout
fires, and with the 100 ms fallback otherwise (no echo, or an echo
arriving after the timeout already resolved the promise). -/
def measurePeerRTT (probeTime : ℚ) (echo : Option (ℚ × ℚ)) : ℚ :=
  match echo with
  | some (arrival, echoT1) =>
      if arrival < probeTime + rttProbeTimeoutMs then arrival - echoT1
      else rttFallbackMs
  | none => rttFallbackMs

/-- The messages `handleNewPeerConnection` sends to the new peer, in
order (the liveness guards all passing): five `sync` pings, then
`clientSyncCompleted` carrying `Math.round(measuredRTT / 2)` as the
latency, then the cached room registration, the ODP `Connected` string,
and the replayed game state. -/
inductive HandshakeMsg where
  | sync (o : ℚ)
  | clientSyncCompleted (latency : ℤ)
  | registerRoom
  | connectedODP
  | replay (i : Nat)
  deriving DecidableEq, Repr

/-- The handshake send sequence as a function of the clock-ping base
time, the RTT probe outcome and the number of replayed state
messages. -/
def handshakeTrace (now probeTime : ℚ) (echo : Option (ℚ × ℚ))
    (replayCount : Nat) : List HandshakeMsg :=
  let measuredRTT := measurePeerRTT probeTime echo
  let latency := jsRound (measuredRTT / 2)
  ((List.range 5).map (fun i => HandshakeMsg.sync (now + i * 100))) ++
    [HandshakeMsg.clientSyncCompleted latency, HandshakeMsg.registerRoom,
     HandshakeMsg.connectedODP] ++
    (List.range replayCount).map HandshakeMsg.replay

/-- Default bounded wait (ms) of `waitForAllReady` / `waitForAllFinished`. -/
def defaultSyncTimeoutMs : ℚ := 15000

/-- The start-gate resolution condition evaluated over the live peer
list: host video ready and every currently connected peer recorded in
`readyPeers`. -/
def startGateCond (s : OrchState) : Prop :=
  s.hostVideoReady = true ∧ ∀ p ∈ getPeerIds s, p ∈ s.readyPeers

/-- The results-gate resolution condition evaluated over the live peer
list. -/
def resultsGateCond (s : OrchState) : Prop :=
  ∀ p ∈ getPeerIds s, p ∈ s.finishedPeers

/-- Events whose handling clears `peersWaitingForSong`. -/
def clearsWaitingEvent : OrchEvent → Prop
  | .handleMsg f => clearsWaitingFunc f
  | _ => False

instance : DecidablePred clearsWaitingEvent := fun e => by
  cases e <;> unfold clearsWaitingEvent <;> infer_instance

/-! ## Theorems -/

/-- Rejected samples leave the synchronizer state untouched. -/
theorem handlePong_reject {s : SyncState} {e : PongEvent}
    (h : 3 ≤ s.recentRTTs.length ∧
      jsMedian s.recentRTTs * RTT_OUTLIER_THRESHOLD < rttOf e) :
    handlePong s e = s := by
  unfold handlePong
  rw [if_pos h]

/-- Accepted samples push their RTT and adopt their candidate offset. -/
theorem handlePong_accept {s : SyncState} {e : PongEvent}
    (h : ¬(3 ≤ s.recentRTTs.length ∧
      jsMedian s.recentRTTs * RTT_OUTLIER_THRESHOLD < rttOf e)) :
    handlePong s e = ⟨pushTrim s.recentRTTs (rttOf e), candOffset e⟩ := by
  unfold handlePong
  rw [if_neg h]

/-- C1 (counterexample): after three accepted probe/echo samples with
candidate offsets 0, 10 and 100, the exposed `clockOffset` is 100 (the
latest accepted candidate), while the median of the retained accepted
offsets is 10 — so the effective offset is not the median of the
buffered offsets as the claim states. -/
theorem c1_counterexample :
    3 ≤ (acceptedOffsets initSync
        [⟨0, 50, 100⟩, ⟨0, 40, 100⟩, ⟨0, -50, 100⟩]).length ∧
    (runSync [⟨0, 50, 100⟩, ⟨0, 40, 100⟩, ⟨0, -50, 100⟩]).clockOffset ≠
      specEffectiveOffset [⟨0, 50, 100⟩, ⟨0, 40, 100⟩, ⟨0, -50, 100⟩] := by
  refine ⟨?_, ?_⟩ <;>
    norm_num [specEffectiveOffset, acceptedOffsets, runSync, runSyncFrom, List.foldl,
      handlePong, initSync, jsMedian, sortAsc, insertAsc, rttOf, candOffset, pushTrim,
      RTT_OUTLIER_THRESHOLD, MAX_RTT_SAMPLES]

/-- C1 (amended): for every sequence of probe/echo exchanges, the
effective clock offset exposed by the follower equals the candidate
offset of the most recently *accepted* sample (the initial offset if none
was accepted); the fixed-size buffer retains RTTs and serves only the
outlier test, and no median of offsets is ever taken. -/
theorem c1_clockOffset_is_latest_accepted (s : SyncState) (evs : List PongEvent) :
    (runSyncFrom s evs).clockOffset = (acceptedOffsets s evs).getLastD s.clockOffset := by
  induction evs generalizing s with
  | nil => rfl
  | cons e evs ih =>
    have hrun : runSyncFrom s (e :: evs) = runSyncFrom (handlePong s e) evs := rfl
    by_cases h : 3 ≤ s.recentRTTs.length ∧
        jsMedian s.recentRTTs * RTT_OUTLIER_THRESHOLD < rttOf e
    · rw [hrun, handlePong_reject h]
      simp only [acceptedOffsets, if_pos h, List.nil_append, handlePong_reject h]
      exact ih s
    · rw [hrun, handlePong_accept h]
      simp only [acceptedOffsets, if_neg h, List.singleton_append,
        handlePong_accept h, List.getLastD_cons]
      exact ih _

/-- C3: a clock-sync reply arriving when the buffer holds at least three
samples and whose RTT exceeds 2.5 times the buffer's median RTT is
rejected silently — the whole synchronizer state (buffer and previously
effective offset) is unchanged; any other reply is accepted: its RTT is
pushed into the (trimmed) buffer and its candidate offset becomes the
effective offset. -/
theorem c3_outlier_rejection (evs : List PongEvent) (e : PongEvent) :
    (3 ≤ (runSync evs).recentRTTs.length →
      jsMedian (runSync evs).recentRTTs * RTT_OUTLIER_THRESHOLD < rttOf e →
      runSync (evs ++ [e]) = runSync evs) ∧
    (¬(3 ≤ (runSync evs).recentRTTs.length ∧
        jsMedian (runSync evs).recentRTTs * RTT_OUTLIER_THRESHOLD < rttOf e) →
      (runSync (evs ++ [e])).recentRTTs = pushTrim (runSync evs).recentRTTs (rttOf e) ∧
      (runSync (evs ++ [e])).clockOffset = candOffset e) := by
  have happ : runSync (evs ++ [e]) = handlePong (runSync evs) e := by
    unfold runSync runSyncFrom
    rw [List.foldl_append]
    rfl
  constructor
  · intro h1 h2
    rw [happ, handlePong_reject ⟨h1, h2⟩]
  · intro h
    rw [happ, handlePong_accept h]
    exact ⟨rfl, rfl⟩

/-- C3 (witness): three accepted 10 ms samples followed by a 100 ms
sample — the median is 10, the threshold 25, so the fourth sample is
rejected and the run is unchanged. -/
theorem c3_outlier_rejection_witness :
    runSync ([⟨0, 0, 10⟩, ⟨0, 0, 10⟩, ⟨0, 0, 10⟩] ++ [⟨0, 0, 100⟩]) =
      runSync [⟨0, 0, 10⟩, ⟨0, 0, 10⟩, ⟨0, 0, 10⟩] :=
  (c3_outlier_rejection [⟨0, 0, 10⟩, ⟨0, 0, 10⟩, ⟨0, 0, 10⟩] ⟨0, 0, 100⟩).1
    (by norm_num [runSync, runSyncFrom, List.foldl, handlePong, initSync, jsMedian,
      sortAsc, insertAsc, rttOf, candOffset, pushTrim, RTT_OUTLIER_THRESHOLD,
      MAX_RTT_SAMPLES])
    (by norm_num [runSync, runSyncFrom, List.foldl, handlePong, initSync, jsMedian,
      sortAsc, insertAsc, rttOf, candOffset, pushTrim, RTT_OUTLIER_THRESHOLD,
      MAX_RTT_SAMPLES])

/-- C4 (counterexample): when a connection attempt's own timeout fires
with the connection still unopened and the retry counter already at
`maxRetries = 8`, no further attempt is scheduled — the code logs
"Max retries reached" instead, so follower reconnection does have a
fixed attempt limit on this path. -/
theorem c4_counterexample : onConnectTimeout false maxRetries = none := rfl

/-- C4 (amended): each connection attempt carries its own 5000 ms
timeout after which the attempt is abandoned and the backoff sequence
advances, but only while fewer than `maxRetries = 8` retries have been
used — at the limit the chain stops scheduling; independently, loss of
an established host connection always schedules a reconnect (the
`reconnectAttempts` counter has no bound). -/
theorem c4_retry_policy :
    (∀ n, n < maxRetries → onConnectTimeout false n = some (backoffDelay n)) ∧
    (∀ n, maxRetries ≤ n → onConnectTimeout false n = none) ∧
    (∀ st : ClientState,
      (onConnClose false false st).1 = some (backoffDelay st.reconnectAttempts) ∧
      ((onConnClose false false st).2).reconnectAttempts = st.reconnectAttempts + 1) := by
  refine ⟨fun n hn => ?_, fun n hn => ?_, fun st => ⟨rfl, rfl⟩⟩
  · unfold onConnectTimeout
    rw [if_pos ⟨rfl, hn⟩]
  · unfold onConnectTimeout
    rw [if_neg]
    rintro ⟨-, h⟩
    exact absurd h (Nat.not_lt.mpr hn)

/-- C4 (witness): a third failed attempt schedules a retry after
`backoffDelay 3`, while a ninth failure schedules nothing. -/
theorem c4_retry_policy_witness :
    onConnectTimeout false 3 = some (backoffDelay 3) ∧
      onConnectTimeout false 9 = none :=
  ⟨c4_retry_policy.1 3 (by decide), c4_retry_policy.2.1 9 (by decide)⟩

/-- C5: the reconnection backoff delay strictly increases across
consecutive failed attempts (exactly by the factor 3/2 while below the
cap) until it reaches the 60000 ms cap at attempt 8, stays at the cap
for every later attempt, and a successful connection resets the attempt
counter so the next close schedules the base delay of 3000 ms. -/
theorem c5_backoff_monotone :
    (∀ n, n < 8 → backoffDelay n < backoffDelay (n + 1)) ∧
    (∀ n, n < 7 → backoffDelay (n + 1) = 3 / 2 * backoffDelay n) ∧
    (∀ n, 8 ≤ n → backoffDelay n = 60000) ∧
    (∀ st : ClientState, (onConnOpen st).reconnectAttempts = 0) ∧
    (∀ st : ClientState,
      (onConnClose false false (onConnOpen st)).1 = some (backoffDelay 0)) ∧
    backoffDelay 0 = 3000 := by
  refine ⟨?_, ?_, ?_, fun _ => rfl, fun _ => rfl, by norm_num [backoffDelay, min_def]⟩
  · intro n hn
    interval_cases n <;> norm_num [backoffDelay, min_def]
  · intro n hn
    interval_cases n <;> norm_num [backoffDelay, min_def]
  · intro n hn
    unfold backoffDelay
    rw [min_eq_right]
    calc (60000 : ℚ) ≤ 3000 * (3 / 2) ^ 8 := by norm_num
      _ ≤ 3000 * (3 / 2) ^ n :=
          mul_le_mul_of_nonneg_left (pow_le_pow_right₀ (by norm_num) hn) (by norm_num)

/-- C5 (witness): concrete instances — strict growth from attempt 0 to
1, the exact 3/2 factor from attempt 2 to 3, and the cap at attempt
10. -/
theorem c5_backoff_monotone_witness :
    backoffDelay 0 < backoffDelay 1 ∧
      backoffDelay 3 = 3 / 2 * backoffDelay 2 ∧
      backoffDelay 10 = 60000 :=
  ⟨c5_backoff_monotone.1 0 (by decide), c5_backoff_monotone.2.1 2 (by decide),
    c5_backoff_monotone.2.2.1 10 (by decide)⟩

/-- Resolution through `checkStartReadiness` happens only when the gate
condition held. -/
theorem checkStart_resolved {s : OrchState}
    (h : (checkStartReadiness s).startResolved = true) :
    s.startResolved = true ∨ startGateCond s := by
  unfold checkStartReadiness at h
  split_ifs at h with hc
  · rcases hc with ⟨hv, hp⟩
    refine Or.inr ⟨hv, ?_⟩
    rcases hp with hemp | hall
    · intro p hp
      rw [hemp] at hp
      cases hp
    · exact hall
  · exact Or.inl h

/-- The start check never changes the fields the gate condition reads. -/
theorem startGateCond_checkStart (s : OrchState) :
    startGateCond (checkStartReadiness s) ↔ startGateCond s := by
  unfold startGateCond getPeerIds checkStartReadiness resolveStartSync
  split_ifs <;> simp

/-- The results machinery never touches the start gate's resolution. -/
theorem checkResults_startResolved (s : OrchState) :
    (checkResultsReadiness s).startResolved = s.startResolved := by
  unfold checkResultsReadiness resolveResultsSync
  split_ifs <;> rfl

/-- C2: the start gate resolves exactly under the claimed rule. With no
connected peers, `waitForAllReady` resolves immediately when host
readiness is already marked, and otherwise resolves as soon as it is
marked; the bounded wait (default 15000 ms) resolves a pending gate
unconditionally; a ready signal from the last outstanding connected peer
resolves a pending gate; and — safety — the gate becomes resolved only
through the timeout or in a state where the host is ready and every
currently connected peer is recorded in `readyPeers`. -/
theorem c2_start_gate :
    (∀ s : OrchState, getPeerIds s = [] → s.hostVideoReady = true →
      (applyEvent s .waitForAllReady).startResolved = true) ∧
    (∀ s : OrchState, getPeerIds s = [] → s.startWaiting = true →
      (applyEvent s .markHostVideoReady).startResolved = true) ∧
    (∀ s : OrchState, s.startWaiting = true →
      (applyEvent s .startTimeout).startResolved = true) ∧
    (∀ (s : OrchState) (p : String), s.startWaiting = true →
      s.hostVideoReady = true → p ∈ getPeerIds s →
      (∀ q ∈ getPeerIds s, q ∈ addSet p s.readyPeers) →
      (applyEvent s (.handleReadyToStart p)).startResolved = true) ∧
    (∀ (s : OrchState) (e : OrchEvent), (applyEvent s e).startResolved = true →
      s.startResolved = true ∨ e = .startTimeout ∨ startGateCond (applyEvent s e)) ∧
    defaultSyncTimeoutMs = 15000 := by
  refine ⟨?_, ?_, ?_, ?_, ?_, rfl⟩
  · intro s h1 h2
    simp only [applyEvent]
    rw [if_pos ⟨h1, h2⟩]
  · intro s h1 hw
    show (checkStartReadiness { s with hostVideoReady := true }).startResolved = true
    unfold checkStartReadiness
    rw [if_pos ⟨rfl, Or.inl h1⟩]
    unfold resolveStartSync
    rw [if_pos hw]
  · intro s hw
    show (resolveStartSync s).startResolved = true
    unfold resolveStartSync
    rw [if_pos hw]
  · intro s p hw hv hp hall
    simp only [applyEvent]
    rw [if_pos hp]
    unfold checkStartReadiness
    rw [if_pos ⟨hv, Or.inr hall⟩]
    unfold resolveStartSync
    rw [if_pos hw]
  · intro s e h
    cases e with
    | peerConnect p =>
      left
      simp only [applyEvent] at h
      split_ifs at h <;> exact h
    | peerDisconnect p => exact Or.inl h
    | handshakeStart p => exact Or.inl h
    | replayCheck p mid =>
      left
      simp only [applyEvent] at h
      split_ifs at h <;> exact h
    | initDone p => exact Or.inl h
    | handleMsg f =>
      left
      simp only [applyEvent] at h
      split_ifs at h <;> exact h
    | markHostVideoReady =>
      simp only [applyEvent] at h
      rcases checkStart_resolved h with hres | hcond
      · exact Or.inl hres
      · exact Or.inr (Or.inr ((startGateCond_checkStart _).mpr hcond))
    | handleReadyToStart p =>
      simp only [applyEvent] at h ⊢
      split_ifs at h ⊢ with hp
      · rcases checkStart_resolved h with hres | hcond
        · exact Or.inl hres
        · exact Or.inr (Or.inr ((startGateCond_checkStart _).mpr hcond))
      · exact Or.inl h
    | handleReadyForResults p =>
      left
      simp only [applyEvent] at h
      split_ifs at h with hp
      · rw [checkResults_startResolved] at h
        exact h
      · exact h
    | waitForAllReady =>
      simp only [applyEvent] at h ⊢
      split_ifs at h ⊢ with hc
      · refine Or.inr (Or.inr ⟨hc.2, fun p hp => ?_⟩)
        have hp' : p ∈ getPeerIds s := hp
        rw [hc.1] at hp'
        cases hp'
      · rcases checkStart_resolved h with hres | hcond
        · exact Or.inl hres
        · exact Or.inr (Or.inr ((startGateCond_checkStart _).mpr hcond))
    | waitForAllFinished =>
      left
      simp only [applyEvent] at h
      split_ifs at h
      · exact h
      · rw [checkResults_startResolved] at h
        exact h
    | startTimeout => exact Or.inr (Or.inl rfl)
    | resultsTimeout =>
      left
      have h' : (resolveResultsSync s).startResolved = true := h
      unfold resolveResultsSync at h'
      split_ifs at h' <;> exact h'
    | resetSyncGates => exact Or.inl h

/-- C2 (witness): with no peers and host readiness marked,
`waitForAllReady` resolves immediately; a pending one-peer gate resolves
on that peer's ready signal. -/
theorem c2_start_gate_witness :
    (applyEvent { initOrch with hostVideoReady := true }
      .waitForAllReady).startResolved = true ∧
    (applyEvent { initOrch with
        conns := [("a", true)]
        hostVideoReady := true
        startWaiting := true }
      (.handleReadyToStart "a")).startResolved = true :=
  ⟨c2_start_gate.1 _ rfl rfl,
    c2_start_gate.2.2.2.1 _ "a" rfl rfl (by decide) (by decide)⟩

/-- C6 (counterexample): a peer that connects, signals ready and then
disconnects remains in `readyPeers` although it is no longer a connected
peer, so the claimed "at all times" membership invariant fails. -/
theorem c6_counterexample :
    "a" ∈ (applyEvents initOrch
        [.peerConnect "a", .handleReadyToStart "a", .peerDisconnect "a"]).readyPeers ∧
    "a" ∉ getPeerIds (applyEvents initOrch
        [.peerConnect "a", .handleReadyToStart "a", .peerDisconnect "a"]) := by
  decide

/-- C6 (amended): a peer id is added to `readyPeers` / `finishedPeers`
only while it is a currently connected peer (signals from unknown peers
are ignored), and after it disconnects it may linger in the set — but
both gate conditions are re-derived from the live peer list at check
time, so a disconnected peer's membership is irrelevant to them and the
gates can resolve without it. -/
theorem c6_membership_guard :
    (∀ (s : OrchState) (p : String), p ∉ getPeerIds s →
      applyEvent s (.handleReadyToStart p) = s) ∧
    (∀ (s : OrchState) (p : String), p ∉ getPeerIds s →
      applyEvent s (.handleReadyForResults p) = s) ∧
    (∀ (s : OrchState) (p : String), p ∉ getPeerIds s →
      (startGateCond s ↔
        startGateCond { s with readyPeers := delSet p s.readyPeers })) ∧
    (∀ (s : OrchState) (p : String), p ∉ getPeerIds s →
      (resultsGateCond s ↔
        resultsGateCond { s with finishedPeers := delSet p s.finishedPeers })) := by
  refine ⟨?_, ?_, ?_, ?_⟩
  · intro s p hp
    simp only [applyEvent]
    rw [if_neg hp]
  · intro s p hp
    simp only [applyEvent]
    rw [if_neg hp]
  · intro s p hp
    constructor
    · rintro ⟨hv, hall⟩
      refine ⟨hv, fun q hq => ?_⟩
      have hq' : q ∈ getPeerIds s := hq
      have hqp : q ≠ p := fun h => hp (h ▸ hq')
      simp [delSet, List.mem_filter, hall q hq', hqp]
    · rintro ⟨hv, hall⟩
      refine ⟨hv, fun q hq => ?_⟩
      have := hall q hq
      simp [delSet, List.mem_filter] at this
      exact this.1
  · intro s p hp
    constructor
    · intro hall q hq
      have hq' : q ∈ getPeerIds s := hq
      have hqp : q ≠ p := fun h => hp (h ▸ hq')
      simp [delSet, List.mem_filter, hall q hq', hqp]
    · intro hall q hq
      have := hall q hq
      simp [delSet, List.mem_filter] at this
      exact this.1

/-- C6 (witness): a ready signal from a peer that is not connected
leaves the orchestrator state unchanged. -/
theorem c6_membership_guard_witness :
    applyEvent { initOrch with readyPeers := ["b"] } (.handleReadyToStart "a") =
      { initOrch with readyPeers := ["b"] } :=
  c6_membership_guard.1 _ "a" (by decide)

/-- Adding an element to a JS set makes it a member. -/
theorem mem_addSet_self (p : String) (l : List String) : p ∈ addSet p l := by
  unfold addSet
  split_ifs with h
  · exact h
  · exact List.mem_append_right l (List.mem_singleton.mpr rfl)

/-- Adding an element to a JS set preserves the other members. -/
theorem mem_addSet_of_mem {q : String} (p : String) {l : List String} (h : q ∈ l) :
    q ∈ addSet p l := by
  unfold addSet
  split_ifs
  · exact h
  · exact List.mem_append_left _ h

/-- The start check never touches `peersWaitingForSong`. -/
theorem checkStart_waiting (s : OrchState) :
    (checkStartReadiness s).peersWaitingForSong = s.peersWaitingForSong := by
  unfold checkStartReadiness resolveStartSync
  split_ifs <;> rfl

/-- The results check never touches `peersWaitingForSong`. -/
theorem checkResults_waiting (s : OrchState) :
    (checkResultsReadiness s).peersWaitingForSong = s.peersWaitingForSong := by
  unfold checkResultsReadiness resolveResultsSync
  split_ifs <;> rfl

/-- Every event other than a clearing `handleMsg` preserves membership in
`peersWaitingForSong`. -/
theorem waiting_preserved {s : OrchState} {e : OrchEvent} {p : String}
    (hne : ¬ clearsWaitingEvent e) (hmem : p ∈ s.peersWaitingForSong) :
    p ∈ (applyEvent s e).peersWaitingForSong := by
  cases e with
  | peerConnect q =>
    simp only [applyEvent]
    split_ifs <;> exact hmem
  | peerDisconnect q => exact hmem
  | handshakeStart q => exact hmem
  | replayCheck q mid =>
    simp only [applyEvent]
    split_ifs <;> first | exact hmem | exact mem_addSet_of_mem q hmem
  | initDone q => exact hmem
  | handleMsg f =>
    have hne' : ¬ clearsWaitingFunc f := hne
    simp only [applyEvent]
    rw [if_neg hne']
    exact hmem
  | markHostVideoReady =>
    show p ∈ (checkStartReadiness _).peersWaitingForSong
    rw [checkStart_waiting]
    exact hmem
  | handleReadyToStart q =>
    simp only [applyEvent]
    split_ifs
    · rw [checkStart_waiting]
      exact hmem
    · exact hmem
  | handleReadyForResults q =>
    simp only [applyEvent]
    split_ifs
    · rw [checkResults_waiting]
      exact hmem
    · exact hmem
  | waitForAllReady =>
    simp only [applyEvent]
    split_ifs
    · exact hmem
    · rw [checkStart_waiting]
      exact hmem
  | waitForAllFinished =>
    simp only [applyEvent]
    split_ifs
    · exact hmem
    · rw [checkResults_waiting]
      exact hmem
  | startTimeout =>
    show p ∈ (resolveStartSync s).peersWaitingForSong
    unfold resolveStartSync
    split_ifs <;> exact hmem
  | resultsTimeout =>
    show p ∈ (resolveResultsSync s).peersWaitingForSong
    unfold resolveResultsSync
    split_ifs <;> exact hmem
  | resetSyncGates => exact hmem

/-- A peer marked as waiting for the song never receives gameplay
traffic from `broadcastMessage`. -/
theorem not_mem_broadcast_of_waiting {s : OrchState} {p f : String}
    (hf : f ∈ gameplayFuncs) (hw : p ∈ s.peersWaitingForSong) :
    p ∉ broadcastMessageSends s f := by
  intro hmem
  rw [broadcastMessageSends, List.mem_filter] at hmem
  simp [hf, hw] at hmem

/-- C7: a follower whose handshake replay step runs while `isMidSong` is
true is added to `peersWaitingForSong`; as long as no `songEnd` or
`returnToLobby` message is handled it stays in that set, and
`broadcastMessage` never sends any gameplay-category message
(`playerFeedBack`, `playerScore`, `playerMoves`) to it; handling a
`songEnd` or `returnToLobby` message clears the waiting set. -/
theorem c7_late_joiner_isolation :
    (∀ (s : OrchState) (p : String), connOpen s p = true →
      p ∈ (applyEvent s (.replayCheck p true)).peersWaitingForSong) ∧
    (∀ (evs : List OrchEvent) (s : OrchState) (p : String),
      p ∈ s.peersWaitingForSong →
      (∀ e ∈ evs, ¬ clearsWaitingEvent e) →
      p ∈ (applyEvents s evs).peersWaitingForSong ∧
      ∀ f ∈ gameplayFuncs, p ∉ broadcastMessageSends (applyEvents s evs) f) ∧
    (∀ (s : OrchState) (f : String), clearsWaitingFunc f →
      (applyEvent s (.handleMsg f)).peersWaitingForSong = []) := by
  refine ⟨?_, ?_, ?_⟩
  · intro s p h
    simp only [applyEvent, h]
    simp [mem_addSet_self]
  · intro evs
    induction evs with
    | nil =>
      intro s p hw _
      exact ⟨hw, fun f hf => not_mem_broadcast_of_waiting hf hw⟩
    | cons e evs ih =>
      intro s p hw hcl
      have he : ¬ clearsWaitingEvent e := hcl e (List.mem_cons_self e evs)
      have hw' : p ∈ (applyEvent s e).peersWaitingForSong :=
        waiting_preserved he hw
      exact ih (applyEvent s e) p hw'
        (fun e' he' => hcl e' (List.mem_cons_of_mem e he'))
  · intro s f hf
    simp only [applyEvent]
    rw [if_pos hf]

/-- C7 (witness): a connected peer checked mid-song lands in the waiting
set, and a waiting peer is excluded from a `playerScore` broadcast. -/
theorem c7_late_joiner_isolation_witness :
    "a" ∈ (applyEvent { initOrch with conns := [("a", true)] }
      (.replayCheck "a" true)).peersWaitingForSong ∧
    "a" ∉ broadcastMessageSends { initOrch with
      conns := [("a", true)]
      peersWaitingForSong := ["a"] } "playerScore" :=
  ⟨c7_late_joiner_isolation.1 _ "a" (by decide),
    (c7_late_joiner_isolation.2.1 [] _ "a" (by decide) (by simp)).2
      "playerScore" (by decide)⟩

/-- An open connection is always a broadcast recipient. -/
theorem mem_broadcastRaw_of_open :
    ∀ (conns : List (String × Bool)) (p : String),
      (conns.lookup p).getD false = true →
      p ∈ (conns.filter (fun c => c.2)).map Prod.fst := by
  intro conns p h
  induction conns with
  | nil => simp [List.lookup] at h
  | cons c cs ih =>
    obtain ⟨k, b⟩ := c
    rw [List.filter_cons]
    cases hk : (p == k) with
    | true =>
      have hkp : p = k := by simpa using hk
      simp only [List.lookup, hk, Option.getD_some] at h
      subst h
      simp [hkp]
    | false =>
      simp only [List.lookup, hk] at h
      have hmem := ih h
      split_ifs
      · rw [List.map_cons]
        exact List.mem_cons_of_mem _ hmem
      · exact hmem

/-- C9: `broadcastRaw` delivers to every open connection regardless of
`initializingPeers` or `peersWaitingForSong` membership, while those two
filters do apply to `broadcastMessage` — an initializing peer receives
no broadcast message at all and a waiting peer receives no gameplay
message. -/
theorem c9_broadcastRaw_unfiltered (s : OrchState) (p f : String)
    (h : connOpen s p = true) :
    p ∈ broadcastRawSends s ∧
    (p ∈ s.initializingPeers → p ∉ broadcastMessageSends s f) ∧
    (f ∈ gameplayFuncs → p ∈ s.peersWaitingForSong →
      p ∉ broadcastMessageSends s f) := by
  refine ⟨mem_broadcastRaw_of_open s.conns p h, ?_,
    fun hf hw => not_mem_broadcast_of_waiting hf hw⟩
  intro hinit hmem
  rw [broadcastMessageSends, List.mem_filter] at hmem
  simp [hinit] at hmem

/-- C9 (witness): a peer that is both initializing and waiting still
receives `broadcastRaw` data, and is excluded from a gameplay
broadcast. -/
theorem c9_broadcastRaw_unfiltered_witness :
    "a" ∈ broadcastRawSends { initOrch with
      conns := [("a", true)]
      initializingPeers := ["a"]
      peersWaitingForSong := ["a"] } ∧
    "a" ∉ broadcastMessageSends { initOrch with
      conns := [("a", true)]
      initializingPeers := ["a"]
      peersWaitingForSong := ["a"] } "playerScore" :=
  ⟨(c9_broadcastRaw_unfiltered _ "a" "playerScore" (by decide)).1,
    (c9_broadcastRaw_unfiltered _ "a" "playerScore" (by decide)).2.1 (by decide)⟩

/-- C8 (counterexample): a `__forward` envelope whose payload is not a
string (for example a number) is malformed, yet the host drops it
silently — no log is produced, contradicting the claim that malformed
inner payloads are dropped *and logged*. -/
theorem c8_counterexample :
    hostHandleForward (fun _ => true) JSVal.nonString = ForwardAction.dropSilent ∧
      ForwardAction.dropSilent ≠ ForwardAction.dropLogged :=
  ⟨rfl, by decide⟩

/-- C8 (amended): the host relays a forwarded payload to the real
WebSocket exactly when it is a string longer than 4 characters whose
content after the 4-character prefix parses; a malformed payload is
never relayed — a parseable-length string that fails to parse is dropped
with a log, while a non-string or too-short payload is dropped
silently. -/
theorem c8_forward_validation :
    (∀ (parse : String → Bool) (v : JSVal) (m : String),
      hostHandleForward parse v = ForwardAction.relay m →
      v = JSVal.str m ∧ 4 < m.length ∧ parse (m.drop 4) = true) ∧
    (∀ (parse : String → Bool) (m : String), 4 < m.length →
      parse (m.drop 4) = true →
      hostHandleForward parse (JSVal.str m) = ForwardAction.relay m) ∧
    (∀ (parse : String → Bool) (m : String), 4 < m.length →
      parse (m.drop 4) = false →
      hostHandleForward parse (JSVal.str m) = ForwardAction.dropLogged) ∧
    (∀ (parse : String → Bool) (m : String), ¬ 4 < m.length →
      hostHandleForward parse (JSVal.str m) = ForwardAction.dropSilent) ∧
    (∀ parse : String → Bool,
      hostHandleForward parse JSVal.nonString = ForwardAction.dropSilent) := by
  refine ⟨?_, ?_, ?_, ?_, fun _ => rfl⟩
  · intro parse v m h
    cases v with
    | nonString => simp [hostHandleForward] at h
    | str t =>
      have h' : (if 4 < t.length then
          if parse (t.drop 4) = true then ForwardAction.relay t
          else ForwardAction.dropLogged
        else ForwardAction.dropSilent) = ForwardAction.relay m := h
      split_ifs at h' with h1 h2
      rw [ForwardAction.relay.injEq] at h'
      subst h'
      exact ⟨rfl, h1, h2⟩
  · intro parse m h1 h2
    show (if 4 < m.length then
        if parse (m.drop 4) = true then ForwardAction.relay m
        else ForwardAction.dropLogged
      else ForwardAction.dropSilent) = ForwardAction.relay m
    rw [if_pos h1, if_pos h2]
  · intro parse m h1 h2
    show (if 4 < m.length then
        if parse (m.drop 4) = true then ForwardAction.relay m
        else ForwardAction.dropLogged
      else ForwardAction.dropSilent) = ForwardAction.dropLogged
    rw [if_pos h1, if_neg (by simp [h2])]
  · intro parse m h1
    show (if 4 < m.length then
        if parse (m.drop 4) = true then ForwardAction.relay m
        else ForwardAction.dropLogged
      else ForwardAction.dropSilent) = ForwardAction.dropSilent
    rw [if_neg h1]

/-- C8 (witness): a five-character payload whose suffix parses is
relayed; a four-character one is dropped silently. -/
theorem c8_forward_validation_witness :
    hostHandleForward (fun _ => true) (JSVal.str "06BJx") =
        ForwardAction.relay "06BJx" ∧
    hostHandleForward (fun _ => true) (JSVal.str "06BJ") =
        ForwardAction.dropSilent :=
  ⟨c8_forward_validation.2.1 (fun _ => true) "06BJx" (by decide) rfl,
    c8_forward_validation.2.2.2.1 (fun _ => true) "06BJ" (by decide)⟩

/-- C10: when no `__rttEcho` arrives before the 2000 ms probe timeout,
`measurePeerRTT` resolves with the 100 ms fallback (also when the echo
arrives only after the timeout), and the handshake proceeds through its
full message sequence using that value — the `clientSyncCompleted`
message carries `Math.round(100 / 2) = 50` as the latency. -/
theorem c10_rtt_fallback (now probeTime : ℚ) (rc : Nat) :
    measurePeerRTT probeTime none = rttFallbackMs ∧
    (∀ arrival echoT1 : ℚ, probeTime + rttProbeTimeoutMs ≤ arrival →
      measurePeerRTT probeTime (some (arrival, echoT1)) = rttFallbackMs) ∧
    handshakeTrace now probeTime none rc =
      ((List.range 5).map fun i => HandshakeMsg.sync (now + i * 100)) ++
        [HandshakeMsg.clientSyncCompleted 50, HandshakeMsg.registerRoom,
          HandshakeMsg.connectedODP] ++
        (List.range rc).map HandshakeMsg.replay := by
  refine ⟨rfl, fun arrival echoT1 h => ?_, ?_⟩
  · show (if arrival < probeTime + rttProbeTimeoutMs then arrival - echoT1
        else rttFallbackMs) = rttFallbackMs
    rw [if_neg (not_lt.mpr h)]
  · unfold handshakeTrace measurePeerRTT
    norm_num [jsRound, rttFallbackMs]

/-- C10 (witness): an echo arriving exactly at the timeout is ignored in
favour of the fallback. -/
theorem c10_rtt_fallback_witness :
    measurePeerRTT 0 (some (2000, 0)) = rttFallbackMs :=
  (c10_rtt_fallback 0 0 0).2.1 2000 0 (by norm_num [rttProbeTimeoutMs])

end ODP
